import Mathlib

/-!
# Quiz Session State Machine — verification of `static/js/app.js`

Shallow embedding of the quiz-related code of `static/js/app.js`
(lines 840–1055): the global `currentQuiz` object, the functions
`startQuiz` (success handler), `displayQuestion`, `selectOption`,
`submitQuizAnswer`, `nextQuizQuestion` and `finishQuiz`, and the
percentage computation of line 996 under IEEE-754 binary64 semantics.

DOM effects are abstracted to the one piece of document state the quiz
logic reads back: the set of rendered `.option-item` elements, modelled
by their count (`domOptionCount`), since `selectOption` looks an option
up by its `data-option-index` attribute.  A JavaScript `TypeError`
thrown inside a handler is modelled by pairing the post-state with
`some QuizError.typeError`: the global state keeps all mutations made
before the throw, as in the browser.
-/

namespace AITutor

/-- One element of `quiz.questions` as consumed by the quiz code:
`question.question`, `question.options`, `question.correctAnswer`. -/
structure Question where
  question : String
  options : List String
  correctAnswer : Int
deriving Repr, DecidableEq

/-- The object stored at `currentQuiz.userAnswers[i]` (app.js lines 950–954). -/
structure AnswerRecord where
  selected : Int
  correct : Int
  isCorrect : Bool
deriving Repr, DecidableEq

/-- A JavaScript exception escaping a quiz handler.  The quiz code only
ever throws `TypeError` (property access on `undefined`/`null`). -/
inductive QuizError where
  | typeError
deriving Repr, DecidableEq

/-- The mutable quiz session: the fields of the global `currentQuiz`
object that the quiz logic reads or writes, plus `domOptionCount`, the
number of `.option-item` elements currently rendered by
`displayQuestion` (the DOM state that `selectOption` consults). -/
structure QuizState where
  questions : List Question
  currentQuestionIndex : Nat
  userAnswers : List (Option AnswerRecord)
  score : Nat
  selectedAnswer : Option Int
  domOptionCount : Nat
deriving Repr, DecidableEq

/-- Result of running one handler: the state after the call together
with the exception it threw, if any.  JavaScript mutations performed
before a throw persist, so the state component is meaningful in both
cases. -/
abbrev JsResult (σ : Type) := σ × Option QuizError

/-- `arr[i] = v` on a JavaScript array: assigns index `i`, padding with
holes (here `none`) when `i` is past the end. -/
def setIdx (l : List (Option AnswerRecord)) (i : Nat) (a : AnswerRecord) :
    List (Option AnswerRecord) :=
  if i < l.length then l.set i (some a)
  else l ++ List.replicate (i - l.length) none ++ [some a]

/-- `displayQuestion` (lines 890–924): reads
`questions[currentQuestionIndex]`; when the index is out of bounds the
element is `undefined` and `question.question` throws a `TypeError`
before the options are re-rendered; otherwise it renders one
`.option-item` per option of the current question. -/
def displayQuestion (s : QuizState) : JsResult QuizState :=
  match s.questions[s.currentQuestionIndex]? with
  | some q => ({ s with domOptionCount := q.options.length }, none)
  | none => (s, some QuizError.typeError)

/-- `selectOption(optionIndex)` (lines 926–941): looks up the rendered
option via `document.querySelector` on its `data-option-index`
attribute.  Rendered indices are `0 … domOptionCount - 1`; any other
index yields `null` and the subsequent `.classList` access throws a
`TypeError` before `currentQuiz.selectedAnswer` is assigned. -/
def selectOption (s : QuizState) (optionIndex : Int) : JsResult QuizState :=
  if 0 ≤ optionIndex ∧ optionIndex < (s.domOptionCount : Int) then
    ({ s with selectedAnswer := some optionIndex }, none)
  else (s, some QuizError.typeError)

/-- `submitQuizAnswer` (lines 943–982): early-returns (no error) when
`selectedAnswer` is `undefined`; otherwise compares the selection with
`questions[currentQuestionIndex].correctAnswer` by strict equality,
stores the answer record, bumps the score on a correct answer and
clears `selectedAnswer`. -/
def submitQuizAnswer (s : QuizState) : JsResult QuizState :=
  match s.selectedAnswer with
  | none => (s, none)
  | some sel =>
    match s.questions[s.currentQuestionIndex]? with
    | none => (s, some QuizError.typeError)
    | some q =>
      let isCorrect : Bool := decide (sel = q.correctAnswer)
      ({ s with
          userAnswers := setIdx s.userAnswers s.currentQuestionIndex
            { selected := sel, correct := q.correctAnswer, isCorrect := isCorrect },
          score := if isCorrect then s.score + 1 else s.score,
          selectedAnswer := none }, none)

/-- `finishQuiz` (lines 994–1025): computes the percentage and duration,
renders the result panel and fires the save request; it mutates none of
the session fields. -/
def finishQuiz (s : QuizState) : JsResult QuizState := (s, none)

/-- `nextQuizQuestion` (lines 984–992): unconditionally increments
`currentQuestionIndex`, then either displays the next question or
finishes the quiz. -/
def nextQuizQuestion (s : QuizState) : JsResult QuizState :=
  let s' := { s with currentQuestionIndex := s.currentQuestionIndex + 1 }
  if s'.currentQuestionIndex < s'.questions.length then displayQuestion s'
  else finishQuiz s'

/-- Success branch of `startQuiz` (lines 862–877): replaces `currentQuiz`
with the fetched quiz object, zeroes `currentQuestionIndex`, `userAnswers`
and `score`, and calls `displayQuestion`.  The rendered options of a
previous session survive in the document until `displayQuestion`
re-renders them, so the fresh state inherits `domOptionCount` from the
previous session when one existed. -/
def startQuizSuccess (prev : Option QuizState) (qs : List Question) :
    JsResult QuizState :=
  let dom0 := (prev.map (fun p => p.domOptionCount)).getD 0
  displayQuestion
    { questions := qs, currentQuestionIndex := 0, userAnswers := [],
      score := 0, selectedAnswer := none, domOptionCount := dom0 }

/-- The controller view of `startQuiz`: the global `currentQuiz` is
`null` in the idle state (`Option`), and line 866 overwrites it with the
new session unconditionally, before `displayQuestion` can throw. -/
def startQuizHandler (prev : Option QuizState) (qs : List Question) :
    Option QuizState × Option QuizError :=
  let r := startQuizSuccess prev qs
  (some r.1, r.2)

/-- One user interaction answering the current question: click an
option, click Submit, click Next — stopping at the first thrown
exception, as the browser does. -/
def jsSeq (r : JsResult QuizState) (f : QuizState → JsResult QuizState) :
    JsResult QuizState :=
  match r with
  | (s, none) => f s
  | (s, some e) => (s, some e)

/-- Answer the currently displayed question with option `sel`:
`selectOption`, then `submitQuizAnswer`, then `nextQuizQuestion`. -/
def answerCurrent (s : QuizState) (sel : Int) : JsResult QuizState :=
  jsSeq (jsSeq (selectOption s sel) submitQuizAnswer) nextQuizQuestion

/-- Drive a whole quiz: perform `answerCurrent` for each selection in
turn, stopping at the first exception. -/
def runSelections (r : JsResult QuizState) (sels : List Int) : JsResult QuizState :=
  sels.foldl (fun r sel => jsSeq r (fun s => answerCurrent s sel)) r

/-- Number of recorded answers marked correct. -/
def countCorrect (l : List (Option AnswerRecord)) : Nat :=
  (l.filterMap id).countP (fun r => r.isCorrect)

/-- The record stored for answering question `q` with selection `sel`
(app.js lines 950–954). -/
def recordOf (q : Question) (sel : Int) : Option AnswerRecord :=
  some { selected := sel, correct := q.correctAnswer,
         isCorrect := decide (sel = q.correctAnswer) }

/-! ## The percentage computation of line 996 under binary64 semantics

`Math.round((currentQuiz.score / currentQuiz.questions.length) * 100)`
performs two IEEE-754 binary64 operations (a division and a
multiplication, each correctly rounded to nearest, ties to even) and
then `Math.round`, which rounds the exact value of its double argument
to the nearest integer with ties toward `+∞`.  Doubles are modelled by
the exact rationals they denote; the operands reachable here (a
quotient in `[0, 1]` and its product with 100) are far inside the
normal range, so rounding to a 53-bit significand is the whole
story. -/

/-- Round a rational to the nearest integer, ties to even. -/
def rne (x : ℚ) : ℤ :=
  if x - ⌊x⌋ < 1/2 then ⌊x⌋
  else if 1/2 < x - ⌊x⌋ then ⌊x⌋ + 1
  else if ⌊x⌋ % 2 = 0 then ⌊x⌋ else ⌊x⌋ + 1

/-- Round a nonnegative rational to the binary64 grid: the nearest
(ties to even) multiple of `2 ^ (⌊log₂ q⌋ - 52)`, i.e. correct rounding
to a 53-bit significand. -/
def roundF64 (q : ℚ) : ℚ :=
  if q ≤ 0 then 0
  else
    (rne (q / 2 ^ (Int.log 2 q - 52)) : ℚ) * 2 ^ (Int.log 2 q - 52)

/-- `Math.round`: nearest integer, ties toward `+∞`, computed on the
exact value of the argument. -/
def mathRound (q : ℚ) : ℤ := ⌊q + 1/2⌋

/-- Line 996: `Math.round((score / total) * 100)` with both arithmetic
operations correctly rounded binary64 operations. -/
def jsPercentage (score total : ℕ) : ℤ :=
  mathRound (roundF64 (roundF64 ((score : ℚ) / (total : ℚ)) * 100))

/-- Round-half-up on the exact quotient `100 * score / total`, the
rounding the specification describes. -/
def exactPercentage (score total : ℕ) : ℤ :=
  mathRound ((100 * (score : ℚ)) / (total : ℚ))

/-- The question set of the end-to-end scenario of §8.7 of the spec:
four questions, four options each, correct indices `[1, 0, 2, 3]`. -/
def scenarioQuestions : List Question :=
  [{ question := "S1", options := ["a", "b", "c", "d"], correctAnswer := 1 },
   { question := "S2", options := ["a", "b", "c", "d"], correctAnswer := 0 },
   { question := "S3", options := ["a", "b", "c", "d"], correctAnswer := 2 },
   { question := "S4", options := ["a", "b", "c", "d"], correctAnswer := 3 }]

/-- A three-question set used to drive `nextQuizQuestion` twice in a
row. -/
def threeQuestions : List Question :=
  [{ question := "T1", options := ["x", "y"], correctAnswer := 0 },
   { question := "T2", options := ["x", "y"], correctAnswer := 1 },
   { question := "T3", options := ["x", "y"], correctAnswer := 0 }]

/-! ## Helper lemmas -/

/-- Characterize `Int.log 2` by bracketing powers, for evaluating it on
concrete rationals. -/
lemma int_log_eq {q : ℚ} {e : ℤ} (hq : 0 < q)
    (h1 : (2 : ℚ) ^ e ≤ q) (h2 : q < (2 : ℚ) ^ (e + 1)) : Int.log 2 q = e := by
  have hle : e ≤ Int.log 2 q := (Int.zpow_le_iff_le_log (by norm_num) hq).mp h1
  have hlt : Int.log 2 q < e + 1 := (Int.lt_zpow_iff_log_lt (by norm_num) hq).mp h2
  omega

lemma rne_le (x : ℚ) : (rne x : ℚ) ≤ x + 1/2 := by
  have hfl := Int.floor_le x
  rw [rne]
  split_ifs with h1 h2 h3
  · linarith
  · push_cast
    linarith
  · linarith
  · push_cast
    linarith

/-- Evaluate `rne` once the floor of its argument is known. -/
lemma rne_eval {x : ℚ} {f : ℤ} (hf : ⌊x⌋ = f) :
    rne x = if x - f < 1/2 then f else if 1/2 < x - f then f + 1
      else if f % 2 = 0 then f else f + 1 := by
  rw [rne, hf]

lemma floor_le_rne (x : ℚ) : ⌊x⌋ ≤ rne x := by
  rw [rne]
  split_ifs <;> omega

lemma roundF64_nonneg (q : ℚ) : 0 ≤ roundF64 q := by
  rw [roundF64]
  split_ifs with h
  · exact le_refl 0
  · push_neg at h
    have hx : 0 ≤ q / 2 ^ (Int.log 2 q - 52) := by positivity
    have h1 : (0 : ℤ) ≤ ⌊q / 2 ^ (Int.log 2 q - 52)⌋ := Int.floor_nonneg.mpr hx
    have h2 := floor_le_rne (q / 2 ^ (Int.log 2 q - 52))
    have : (0 : ℚ) ≤ (rne (q / 2 ^ (Int.log 2 q - 52)) : ℚ) := by exact_mod_cast h1.trans h2
    positivity

/-- Correct rounding overshoots a nonnegative value by at most half an
ulp, hence by at most a `2⁻⁵³` relative error. -/
lemma roundF64_le {q : ℚ} (h : 0 ≤ q) : roundF64 q ≤ q + q * (2 : ℚ) ^ (-53 : ℤ) := by
  rw [roundF64]
  split_ifs with hle
  · nlinarith [zpow_pos (show (0:ℚ) < 2 by norm_num) (-53 : ℤ)]
  · push_neg at hle
    set e : ℤ := Int.log 2 q - 52 with he
    have hpow : (0 : ℚ) < 2 ^ e := zpow_pos (by norm_num) e
    have hrne := rne_le (q / 2 ^ e)
    have step1 : (rne (q / 2 ^ e) : ℚ) * 2 ^ e ≤ (q / 2 ^ e + 1/2) * 2 ^ e :=
      mul_le_mul_of_nonneg_right hrne hpow.le
    have step2 : (q / 2 ^ e + 1/2) * 2 ^ e = q + 2 ^ e / 2 := by
      field_simp
      ring
    have hlog : (2 : ℚ) ^ (Int.log 2 q) ≤ q := Int.zpow_log_le_self (by norm_num) hle
    have step3 : (2 : ℚ) ^ e / 2 ≤ q * 2 ^ (-53 : ℤ) := by
      have he2 : (2 : ℚ) ^ e / 2 = 2 ^ (Int.log 2 q) * 2 ^ (-53 : ℤ) := by
        have harg : e + (-1) = Int.log 2 q + (-53) := by rw [he]; ring
        rw [div_eq_mul_inv, ← zpow_neg_one, ← zpow_add₀ (show (2:ℚ) ≠ 0 by norm_num),
          harg, zpow_add₀ (show (2:ℚ) ≠ 0 by norm_num)]
      rw [he2]
      exact mul_le_mul_of_nonneg_right hlog (zpow_pos (show (0:ℚ) < 2 by norm_num) _).le
    linarith

lemma setIdx_append (l : List (Option AnswerRecord)) (a : AnswerRecord) :
    setIdx l l.length a = l ++ [some a] := by
  rw [setIdx]
  simp

lemma countCorrect_nil : countCorrect [] = 0 := rfl

lemma countCorrect_cons_some (r : AnswerRecord) (l : List (Option AnswerRecord)) :
    countCorrect (some r :: l) = (if r.isCorrect then 1 else 0) + countCorrect l := by
  rw [countCorrect, countCorrect]
  simp [List.countP_cons]
  split_ifs <;> omega

lemma countCorrect_append (l₁ l₂ : List (Option AnswerRecord)) :
    countCorrect (l₁ ++ l₂) = countCorrect l₁ + countCorrect l₂ := by
  rw [countCorrect, countCorrect, countCorrect]
  rw [List.filterMap_append, List.countP_append]

/-- Effect of one select–submit–advance interaction on a well-rendered
state with a valid selection. -/
lemma answerCurrent_eq (s : QuizState) (q : Question) (sel : Int)
    (hq : s.questions[s.currentQuestionIndex]? = some q)
    (hdom : s.domOptionCount = q.options.length)
    (hlen : s.userAnswers.length = s.currentQuestionIndex)
    (h0 : 0 ≤ sel) (h1 : sel < (q.options.length : ℤ)) :
    ∃ s' : QuizState,
      answerCurrent s sel = (s', none) ∧
      s'.questions = s.questions ∧
      s'.currentQuestionIndex = s.currentQuestionIndex + 1 ∧
      s'.userAnswers = s.userAnswers ++ [recordOf q sel] ∧
      s'.score = s.score + (if sel = q.correctAnswer then 1 else 0) ∧
      s'.selectedAnswer = none ∧
      (∀ q', s.questions[s.currentQuestionIndex + 1]? = some q' →
        s'.domOptionCount = q'.options.length) := by
  have hguard : 0 ≤ sel ∧ sel < (s.domOptionCount : ℤ) := by
    refine ⟨h0, ?_⟩
    rw [hdom]
    exact_mod_cast h1
  have hsel : selectOption s sel = ({ s with selectedAnswer := some sel }, none) := by
    rw [selectOption, if_pos hguard]
  have hsetidx : setIdx s.userAnswers s.currentQuestionIndex
      { selected := sel, correct := q.correctAnswer,
        isCorrect := decide (sel = q.correctAnswer) }
      = s.userAnswers ++ [recordOf q sel] := by
    rw [← hlen, setIdx_append, recordOf]
  have hsub : submitQuizAnswer { s with selectedAnswer := some sel } =
      ({ s with
          userAnswers := s.userAnswers ++ [recordOf q sel],
          score := if sel = q.correctAnswer then s.score + 1 else s.score,
          selectedAnswer := none }, none) := by
    rw [submitQuizAnswer]
    simp only [hq, hsetidx]
    simp only [decide_eq_true_eq]
  by_cases hnext : s.currentQuestionIndex + 1 < s.questions.length
  · obtain ⟨q', hq'⟩ : ∃ q', s.questions[s.currentQuestionIndex + 1]? = some q' := by
      rw [List.getElem?_eq_getElem hnext]
      exact ⟨_, rfl⟩
    refine ⟨{ s with
        currentQuestionIndex := s.currentQuestionIndex + 1,
        userAnswers := s.userAnswers ++ [recordOf q sel],
        score := if sel = q.correctAnswer then s.score + 1 else s.score,
        selectedAnswer := none,
        domOptionCount := q'.options.length }, ?_, rfl, rfl, rfl, ?_, rfl, ?_⟩
    · rw [answerCurrent, hsel]
      show jsSeq (submitQuizAnswer { s with selectedAnswer := some sel }) nextQuizQuestion = _
      rw [hsub]
      show nextQuizQuestion _ = _
      rw [nextQuizQuestion]
      simp only [if_pos hnext, displayQuestion, hq']
    · show (if sel = q.correctAnswer then s.score + 1 else s.score)
          = s.score + (if sel = q.correctAnswer then 1 else 0)
      split_ifs <;> omega
    · intro q'' hq''
      rw [hq'] at hq''
      cases hq''
      rfl
  · refine ⟨{ s with
        currentQuestionIndex := s.currentQuestionIndex + 1,
        userAnswers := s.userAnswers ++ [recordOf q sel],
        score := if sel = q.correctAnswer then s.score + 1 else s.score,
        selectedAnswer := none }, ?_, rfl, rfl, rfl, ?_, rfl, ?_⟩
    · rw [answerCurrent, hsel]
      show jsSeq (submitQuizAnswer { s with selectedAnswer := some sel }) nextQuizQuestion = _
      rw [hsub]
      show nextQuizQuestion _ = _
      rw [nextQuizQuestion]
      simp only [if_neg hnext, finishQuiz]
    · show (if sel = q.correctAnswer then s.score + 1 else s.score)
          = s.score + (if sel = q.correctAnswer then 1 else 0)
      split_ifs <;> omega
    · intro q'' hq''
      rw [List.getElem?_eq_none (by omega)] at hq''
      cases hq''

lemma runSelections_cons (r : JsResult QuizState) (sel : Int) (rest : List Int) :
    runSelections r (sel :: rest)
      = runSelections (jsSeq r (fun s => answerCurrent s sel)) rest := rfl

/-- Driving a well-rendered state through one selection per remaining
question, every selection in range, reaches the end of the quiz with no
exception; the answers list grows by one record per question and the
score grows by the number of correct selections. -/
lemma runSelections_spec (sels : List Int) :
    ∀ s : QuizState,
      s.selectedAnswer = none →
      s.userAnswers.length = s.currentQuestionIndex →
      (∀ q, s.questions[s.currentQuestionIndex]? = some q →
        s.domOptionCount = q.options.length) →
      List.Forall₂ (fun (q : Question) (sel : Int) => 0 ≤ sel ∧ sel < (q.options.length : ℤ))
        (s.questions.drop s.currentQuestionIndex) sels →
      ∃ s', runSelections (s, none) sels = (s', none) ∧
        s'.questions = s.questions ∧
        s'.currentQuestionIndex = s.currentQuestionIndex + sels.length ∧
        s'.userAnswers = s.userAnswers ++
          List.zipWith recordOf (s.questions.drop s.currentQuestionIndex) sels ∧
        s'.score = s.score +
          countCorrect (List.zipWith recordOf (s.questions.drop s.currentQuestionIndex) sels) ∧
        s'.selectedAnswer = none := by
  induction sels with
  | nil =>
    intro s h1 h2 h3 hf
    exact ⟨s, rfl, rfl, by simp, by simp, by simp [countCorrect_nil], h1⟩
  | cons sel rest ih =>
    intro s hselnone hlen hdom hf
    rw [List.forall₂_cons_right_iff] at hf
    obtain ⟨q, l', ⟨hs0, hs1⟩, hfrest, hdrop⟩ := hf
    have hq : s.questions[s.currentQuestionIndex]? = some q := by
      have h0 : (s.questions.drop s.currentQuestionIndex)[0]? = some q := by
        rw [hdrop]
        simp
      rw [List.getElem?_drop] at h0
      simpa using h0
    have hl' : s.questions.drop (s.currentQuestionIndex + 1) = l' := by
      have htl := List.tail_drop s.questions s.currentQuestionIndex
      rw [hdrop] at htl
      simpa using htl.symm
    obtain ⟨s₁, hrun1, hq1, hidx1, hua1, hsc1, hsel1, hdom1⟩ :=
      answerCurrent_eq s q sel hq (hdom q hq) hlen hs0 hs1
    have hdom1' : ∀ q', s₁.questions[s₁.currentQuestionIndex]? = some q' →
        s₁.domOptionCount = q'.options.length := by
      intro q' hq'
      apply hdom1
      rw [← hidx1, ← hq1]
      exact hq'
    have hfrest' : List.Forall₂
        (fun (q : Question) (sel : Int) => 0 ≤ sel ∧ sel < (q.options.length : ℤ))
        (s₁.questions.drop s₁.currentQuestionIndex) rest := by
      rw [hq1, hidx1, hl']
      exact hfrest
    have hlen1 : s₁.userAnswers.length = s₁.currentQuestionIndex := by
      rw [hua1, hidx1]
      simp [hlen]
    obtain ⟨s₂, hrun2, hq2, hidx2, hua2, hsc2, hsel2⟩ := ih s₁ hsel1 hlen1 hdom1' hfrest'
    have hstep : jsSeq (s, none) (fun s => answerCurrent s sel) = (s₁, none) := hrun1
    refine ⟨s₂, ?_, ?_, ?_, ?_, ?_, hsel2⟩
    · rw [runSelections_cons, hstep, hrun2]
    · rw [hq2, hq1]
    · rw [hidx2, hidx1, List.length_cons]
      omega
    · rw [hua2, hua1, hq1, hidx1, hl', hdrop, List.zipWith_cons_cons, List.append_assoc]
      rfl
    · rw [hsc2, hsc1, hq1, hidx1, hl', hdrop, List.zipWith_cons_cons]
      have hcc : countCorrect (recordOf q sel :: List.zipWith recordOf l' rest)
          = (if sel = q.correctAnswer then 1 else 0)
            + countCorrect (List.zipWith recordOf l' rest) := by
        rw [recordOf, countCorrect_cons_some]
        congr 1
        simp only [decide_eq_true_eq]
      rw [hcc]
      omega

/-- `nextQuizQuestion` never raises and always moves the index forward
by exactly one, whatever the state. -/
lemma nextQuizQuestion_anatomy (s : QuizState) :
    (nextQuizQuestion s).2 = none ∧
    (nextQuizQuestion s).1.currentQuestionIndex = s.currentQuestionIndex + 1 := by
  rw [nextQuizQuestion]
  by_cases h : s.currentQuestionIndex + 1 < s.questions.length
  · rw [if_pos h, displayQuestion]
    rw [List.getElem?_eq_getElem (by exact h)]
    exact ⟨rfl, rfl⟩
  · rw [if_neg h, finishQuiz]
    exact ⟨rfl, rfl⟩

/-- Starting with a non-empty question set renders the first question. -/
lemma startQuizSuccess_cons (prev : Option QuizState) (q0 : Question) (t : List Question) :
    startQuizSuccess prev (q0 :: t) =
      ({ questions := q0 :: t, currentQuestionIndex := 0, userAnswers := [],
         score := 0, selectedAnswer := none,
         domOptionCount := q0.options.length }, none) := by
  rw [startQuizSuccess, displayQuestion]
  simp

/-- Answering every question with its own `correctAnswer` produces only
correct records. -/
lemma countCorrect_all_correct (qs : List Question) :
    countCorrect (List.zipWith recordOf qs (qs.map (fun q => q.correctAnswer)))
      = qs.length := by
  induction qs with
  | nil => rfl
  | cons q t ih =>
    rw [List.map_cons, List.zipWith_cons_cons, recordOf, countCorrect_cons_some, ih]
    simp
    omega

lemma roundF64_one : roundF64 1 = 1 := by
  have hlog : Int.log 2 (1 : ℚ) = 0 :=
    int_log_eq (by norm_num) (by norm_num) (by norm_num)
  rw [roundF64, if_neg (by norm_num), hlog]
  norm_num [rne]

lemma roundF64_hundred : roundF64 (100 : ℚ) = 100 := by
  have hlog : Int.log 2 (100 : ℚ) = 6 :=
    int_log_eq (by norm_num) (by norm_num) (by norm_num)
  rw [roundF64, if_neg (by norm_num), hlog]
  norm_num [rne]

/-- A full score always displays as 100%: every double computation on
the way is exact. -/
lemma jsPercentage_self (n : ℕ) (h : 1 ≤ n) : jsPercentage n n = 100 := by
  have hq : ((n : ℚ)) / ((n : ℚ)) = 1 := by
    apply div_self
    have : (0 : ℚ) < n := by exact_mod_cast h
    linarith
  rw [jsPercentage, hq, roundF64_one, one_mul, roundF64_hundred]
  norm_num [mathRound]

lemma jsPercentage_three_four : jsPercentage 3 4 = 75 := by
  have hlog1 : Int.log 2 (3/4 : ℚ) = -1 :=
    int_log_eq (by norm_num) (by norm_num) (by norm_num)
  have h1 : roundF64 ((3 : ℚ)/4) = 3/4 := by
    rw [roundF64, if_neg (by norm_num), hlog1]
    norm_num [rne]
  have hlog2 : Int.log 2 (75 : ℚ) = 6 :=
    int_log_eq (by norm_num) (by norm_num) (by norm_num)
  have h2 : roundF64 (75 : ℚ) = 75 := by
    rw [roundF64, if_neg (by norm_num), hlog2]
    norm_num [rne]
  have hcast : ((3 : ℕ) : ℚ) / ((4 : ℕ) : ℚ) = (3 : ℚ)/4 := by norm_num
  rw [jsPercentage, hcast, h1, show ((3 : ℚ)/4 * 100) = 75 by norm_num, h2]
  norm_num [mathRound]

/-! ## Claims -/

/-- C1: for every question set and every full sequence of in-range
selections, after the quiz finishes the session's score equals the
number of recorded answer records whose `isCorrect` field is true,
whatever mix of correct and incorrect selections was made. -/
theorem quiz_score_eq_countCorrect (qs : List Question) (sels : List Int)
    (hne : qs ≠ [])
    (hvalid : List.Forall₂ (fun (q : Question) (sel : Int) =>
      0 ≤ sel ∧ sel < (q.options.length : ℤ)) qs sels) :
    ∃ s', runSelections (startQuizSuccess none qs) sels = (s', none) ∧
      s'.currentQuestionIndex = s'.questions.length ∧
      s'.score = countCorrect s'.userAnswers := by
  obtain ⟨q0, t, rfl⟩ := List.exists_cons_of_ne_nil hne
  have hlen := List.Forall₂.length_eq hvalid
  rw [startQuizSuccess_cons]
  obtain ⟨s', hrun, hq, hidx, hua, hsc, hsel⟩ :=
    runSelections_spec sels
      { questions := q0 :: t, currentQuestionIndex := 0, userAnswers := [],
        score := 0, selectedAnswer := none, domOptionCount := q0.options.length }
      rfl rfl
      (by
        intro q hq0
        simp only [List.getElem?_cons_zero, Option.some.injEq] at hq0
        rw [hq0])
      (by simpa using hvalid)
  refine ⟨s', hrun, ?_, ?_⟩
  · rw [hidx, hq]
    simp only [List.length_cons] at hlen ⊢
    omega
  · rw [hsc, hua]
    simp

/-- C1 witness: a one-question quiz answered with the wrong option. -/
theorem quiz_score_eq_countCorrect_witness :
    ∃ s', runSelections (startQuizSuccess none
        [{ question := "W", options := ["a", "b"], correctAnswer := 1 }]) [0]
      = (s', none) ∧
      s'.currentQuestionIndex = s'.questions.length ∧
      s'.score = countCorrect s'.userAnswers :=
  quiz_score_eq_countCorrect _ _ (List.cons_ne_nil _ _)
    (List.Forall₂.cons (by decide) List.Forall₂.nil)

/-- C2: the end-to-end scenario — four questions with correct indices
`[1, 0, 2, 3]`, submitted answers `[1, 0, 0, 3]` — finishes without
error with score 3, percentage 75 and the expected answer records. -/
theorem scenario_four_questions :
    (runSelections (startQuizSuccess none scenarioQuestions) [1, 0, 0, 3]).2 = none ∧
    (runSelections (startQuizSuccess none scenarioQuestions) [1, 0, 0, 3]).1.score = 3 ∧
    jsPercentage
      (runSelections (startQuizSuccess none scenarioQuestions) [1, 0, 0, 3]).1.score
      (runSelections (startQuizSuccess none scenarioQuestions) [1, 0, 0, 3]).1.questions.length
      = 75 ∧
    (runSelections (startQuizSuccess none scenarioQuestions) [1, 0, 0, 3]).1.userAnswers =
      [some { selected := 1, correct := 1, isCorrect := true },
       some { selected := 0, correct := 0, isCorrect := true },
       some { selected := 0, correct := 2, isCorrect := false },
       some { selected := 3, correct := 3, isCorrect := true }] := by
  have hsc : (runSelections (startQuizSuccess none scenarioQuestions)
      [1, 0, 0, 3]).1.score = 3 := by decide
  have hql : (runSelections (startQuizSuccess none scenarioQuestions)
      [1, 0, 0, 3]).1.questions.length = 4 := by decide
  refine ⟨by decide, hsc, ?_, by decide⟩
  rw [hsc, hql]
  exact jsPercentage_three_four

/-- C3 counterexample: at score 23 out of 40 the reported percentage is
57, while round-half-up on the exact quotient `100 · 23 / 40 = 57.5`
gives 58: the double computation of line 996 rounds `(23/40) * 100` to
a value strictly below 57.5. -/
theorem percentage_differs_from_exact_rounding :
    jsPercentage 23 40 = 57 ∧ exactPercentage 23 40 = 58 := by
  constructor
  · have hlog1 : Int.log 2 (23/40 : ℚ) = -1 :=
      int_log_eq (by norm_num) (by norm_num) (by norm_num)
    have hfl1 : ⌊(25895697857380352 / 5 : ℚ)⌋ = 5179139571476070 := by
      rw [Int.floor_eq_iff]
      norm_num
    have h1 : roundF64 (23/40 : ℚ) = 2589569785738035 / 4503599627370496 := by
      rw [roundF64, if_neg (by norm_num), hlog1]
      norm_num [rne_eval hfl1]
    have hlog2 : Int.log 2 (64739244643450875 / 1125899906842624 : ℚ) = 5 :=
      int_log_eq (by norm_num) (by norm_num) (by norm_num)
    have hfl2 : ⌊(64739244643450875 / 8 : ℚ)⌋ = 8092405580431359 := by
      rw [Int.floor_eq_iff]
      norm_num
    have h2 : roundF64 (64739244643450875 / 1125899906842624 : ℚ)
        = 8092405580431359 / 140737488355328 := by
      rw [roundF64, if_neg (by norm_num), hlog2]
      norm_num [rne_eval hfl2]
    have hstep : roundF64 (23/40 : ℚ) * 100 = 64739244643450875 / 1125899906842624 := by
      rw [h1]
      norm_num
    have hcast : ((23 : ℕ) : ℚ) / ((40 : ℕ) : ℚ) = (23 : ℚ)/40 := by norm_num
    rw [jsPercentage, hcast]
    norm_num [hstep, h2, mathRound]
  · rw [exactPercentage, mathRound]
    norm_num

/-- C3 amended: the reported percentage equals round-half-up applied to
the binary64 value of `(score / total) * 100` — which can differ by one
from round-half-up on the exact quotient — and it always lies in
`[0, 100]` when `0 ≤ score ≤ total` and `total ≥ 1`. -/
theorem percentage_always_in_range (s t : ℕ) (ht : 1 ≤ t) (hst : s ≤ t) :
    0 ≤ jsPercentage s t ∧ jsPercentage s t ≤ 100 := by
  have hε0 : (0:ℚ) ≤ (2:ℚ)^(-53:ℤ) := (zpow_pos (by norm_num) _).le
  have hεsmall : (2:ℚ)^(-53:ℤ) ≤ 1/1000 := by
    rw [zpow_neg]
    rw [show ((2:ℚ)^(53:ℤ)) = ((9007199254740992 : ℚ)) by norm_num]
    rw [inv_le_comm₀ (by norm_num) (by norm_num)]
    norm_num
  have htq : (0:ℚ) < t := by exact_mod_cast ht
  have hx0 : (0:ℚ) ≤ (s:ℚ)/t := by positivity
  have hx1 : (s:ℚ)/t ≤ 1 := (div_le_one htq).mpr (by exact_mod_cast hst)
  have hd0 : 0 ≤ roundF64 ((s:ℚ)/t) := roundF64_nonneg _
  have hd1 : roundF64 ((s:ℚ)/t) ≤ 1 + (2:ℚ)^(-53:ℤ) := by
    have := roundF64_le hx0
    nlinarith
  have hm0 : (0:ℚ) ≤ roundF64 ((s:ℚ)/t) * 100 := by positivity
  have hm1 : roundF64 ((s:ℚ)/t) * 100 ≤ 100 + 100 * (2:ℚ)^(-53:ℤ) := by nlinarith
  have hp0 : 0 ≤ roundF64 (roundF64 ((s:ℚ)/t) * 100) := roundF64_nonneg _
  have hp1 : roundF64 (roundF64 ((s:ℚ)/t) * 100) < 201/2 := by
    have := roundF64_le hm0
    nlinarith
  rw [jsPercentage, mathRound]
  constructor
  · apply Int.floor_nonneg.mpr
    linarith
  · have hfl : ⌊roundF64 (roundF64 ((s:ℚ)/t) * 100) + 1/2⌋ < 101 := by
      apply Int.floor_lt.mpr
      push_cast
      linarith
    omega

/-- C3 amended witness: 3 of 4 correct. -/
theorem percentage_always_in_range_witness :
    0 ≤ jsPercentage 3 4 ∧ jsPercentage 3 4 ≤ 100 :=
  percentage_always_in_range 3 4 (by norm_num) (by norm_num)

/-- C4 counterexample: starting from the idle controller with an empty
question list does not leave the controller idle — a session object is
installed — and the failure raised is a `TypeError` thrown by
`displayQuestion`, not a structured `InvalidInput` check. -/
theorem start_empty_creates_session :
    (startQuizHandler none []).1.isSome = true ∧
    (startQuizHandler none []).2 = some QuizError.typeError := by
  decide

/-- C4 amended: for every prior controller state, starting with an
empty question set installs a fresh empty session (`currentIndex = 0`,
`score = 0`, no answers) and then throws a `TypeError` while trying to
display the first question; no `InvalidInput` error exists in the code
and the controller does not remain idle. -/
theorem start_empty_installs_session_then_throws (prev : Option QuizState) :
    ∃ s, startQuizHandler prev [] = (some s, some QuizError.typeError) ∧
      s.questions = [] ∧ s.currentQuestionIndex = 0 ∧ s.score = 0 ∧
      s.userAnswers = [] ∧ s.selectedAnswer = none := by
  refine ⟨{ questions := [], currentQuestionIndex := 0, userAnswers := [],
            score := 0, selectedAnswer := none,
            domOptionCount := (prev.map (fun p => p.domOptionCount)).getD 0 },
    ?_, rfl, rfl, rfl, rfl, rfl⟩
  rw [startQuizHandler, startQuizSuccess, displayQuestion]
  rfl

/-- C5: in a state displaying the current question (as after
`displayQuestion`, so in `AwaitingSelection` or `AnswerSelected`),
`selectOption` with an index outside `[0, len(options))` fails — the
failed DOM lookup throws a `TypeError` — and leaves the session state
entirely unchanged. -/
theorem selectOption_out_of_range_fails (s : QuizState) (q : Question) (i : ℤ)
    (_hq : s.questions[s.currentQuestionIndex]? = some q)
    (hdom : s.domOptionCount = q.options.length)
    (hout : ¬ (0 ≤ i ∧ i < (q.options.length : ℤ))) :
    selectOption s i = (s, some QuizError.typeError) := by
  rw [selectOption, if_neg]
  rw [hdom]
  exact hout

/-- C5 witness: index 5 against a two-option question. -/
theorem selectOption_out_of_range_fails_witness :
    selectOption
      { questions := [{ question := "V", options := ["a", "b"], correctAnswer := 1 }],
          currentQuestionIndex := 0, userAnswers := [], score := 0,
          selectedAnswer := none, domOptionCount := 2 } 5
      = ({ questions := [{ question := "V", options := ["a", "b"], correctAnswer := 1 }],
            currentQuestionIndex := 0, userAnswers := [], score := 0,
            selectedAnswer := none, domOptionCount := 2 }, some QuizError.typeError) :=
  selectOption_out_of_range_fails _
    { question := "V", options := ["a", "b"], correctAnswer := 1 } 5
    (by decide) (by decide) (by decide)

/-- C6 counterexample: submitting with no option selected raises no
error at all — the handler returns after its guard — so it does not
fail with `NoSelection`. -/
theorem submit_without_selection_returns_no_error :
    submitQuizAnswer
      { questions := [{ question := "N", options := ["a", "b"], correctAnswer := 0 }],
          currentQuestionIndex := 0, userAnswers := [], score := 0,
          selectedAnswer := none, domOptionCount := 2 }
      = ({ questions := [{ question := "N", options := ["a", "b"], correctAnswer := 0 }],
            currentQuestionIndex := 0, userAnswers := [], score := 0,
            selectedAnswer := none, domOptionCount := 2 }, none) := by
  decide

/-- C6 amended: `submitQuizAnswer` in any state with no selected option
returns silently with the session unchanged; no `NoSelection` error is
raised (the interface prevents this case by disabling the submit
button). -/
theorem submit_without_selection_noop (s : QuizState)
    (h : s.selectedAnswer = none) : submitQuizAnswer s = (s, none) := by
  rw [submitQuizAnswer, h]

/-- C6 amended witness. -/
theorem submit_without_selection_noop_witness :
    submitQuizAnswer
      { questions := [], currentQuestionIndex := 3, userAnswers := [],
          score := 7, selectedAnswer := none, domOptionCount := 0 }
      = ({ questions := [], currentQuestionIndex := 3, userAnswers := [],
            score := 7, selectedAnswer := none, domOptionCount := 0 }, none) :=
  submit_without_selection_noop _ rfl

/-- C7 counterexample: on a three-question quiz, after answering the
first question, calling `advance` again with no intervening submission
raises no error: it silently skips question 2 (the index jumps to 2
while only one answer is recorded). -/
theorem double_advance_skips_question :
    (jsSeq (startQuizSuccess none threeQuestions) (fun s => answerCurrent s 0)).2
      = none ∧
    (nextQuizQuestion (jsSeq (startQuizSuccess none threeQuestions)
        (fun s => answerCurrent s 0)).1).2 = none ∧
    (nextQuizQuestion (jsSeq (startQuizSuccess none threeQuestions)
        (fun s => answerCurrent s 0)).1).1.currentQuestionIndex = 2 ∧
    (nextQuizQuestion (jsSeq (startQuizSuccess none threeQuestions)
        (fun s => answerCurrent s 0)).1).1.userAnswers.length = 1 := by
  decide

/-- C7 amended: `nextQuizQuestion` never fails: called twice in a row
from any state it raises no error and increments
`currentQuestionIndex` twice, skipping the unanswered question or
ending the quiz early; no `InvalidTransition` error exists in the
code. -/
theorem advance_twice_increments_twice (s : QuizState) :
    (nextQuizQuestion (nextQuizQuestion s).1).2 = none ∧
    (nextQuizQuestion (nextQuizQuestion s).1).1.currentQuestionIndex
      = s.currentQuestionIndex + 2 := by
  obtain ⟨h1e, h1i⟩ := nextQuizQuestion_anatomy s
  obtain ⟨h2e, h2i⟩ := nextQuizQuestion_anatomy (nextQuizQuestion s).1
  refine ⟨h2e, ?_⟩
  rw [h2i, h1i]

/-- C8: starting with a non-empty question set from any prior
controller state — idle, mid-quiz or finished — discards the old
session and installs a fresh one with index 0, score 0 and no
answers. -/
theorem start_discards_old_session (prev : Option QuizState) (qs : List Question)
    (hne : qs ≠ []) :
    ∃ s, startQuizHandler prev qs = (some s, none) ∧
      s.questions = qs ∧ s.currentQuestionIndex = 0 ∧ s.score = 0 ∧
      s.userAnswers = [] ∧ s.selectedAnswer = none := by
  obtain ⟨q0, t, rfl⟩ := List.exists_cons_of_ne_nil hne
  refine ⟨{ questions := q0 :: t, currentQuestionIndex := 0, userAnswers := [],
            score := 0, selectedAnswer := none,
            domOptionCount := q0.options.length },
    ?_, rfl, rfl, rfl, rfl, rfl⟩
  rw [startQuizHandler, startQuizSuccess_cons]

/-- C8 witness: a retake from a mid-quiz session. -/
theorem start_discards_old_session_witness :
    ∃ s, startQuizHandler
        (some { questions := [{ question := "O", options := ["a", "b"], correctAnswer := 0 }],
                currentQuestionIndex := 0,
                userAnswers := [some { selected := 0, correct := 0, isCorrect := true }],
                score := 1, selectedAnswer := some 0, domOptionCount := 2 })
        [{ question := "R", options := ["x", "y", "z"], correctAnswer := 2 }]
      = (some s, none) ∧
      s.questions = [{ question := "R", options := ["x", "y", "z"], correctAnswer := 2 }] ∧
      s.currentQuestionIndex = 0 ∧ s.score = 0 ∧
      s.userAnswers = [] ∧ s.selectedAnswer = none :=
  start_discards_old_session _ _ (List.cons_ne_nil _ _)

/-- C9: for every non-empty question set whose correct indices are in
range, answering every question with its correct option yields a
finished session with full score and percentage 100. -/
theorem all_correct_gives_full_score (qs : List Question)
    (hne : qs ≠ [])
    (hvalid : ∀ q ∈ qs, 0 ≤ q.correctAnswer ∧ q.correctAnswer < (q.options.length : ℤ)) :
    ∃ s', runSelections (startQuizSuccess none qs)
        (qs.map (fun q => q.correctAnswer)) = (s', none) ∧
      s'.currentQuestionIndex = s'.questions.length ∧
      s'.score = qs.length ∧
      jsPercentage s'.score s'.questions.length = 100 := by
  obtain ⟨q0, t, rfl⟩ := List.exists_cons_of_ne_nil hne
  rw [startQuizSuccess_cons]
  have hforall : List.Forall₂ (fun (q : Question) (sel : Int) =>
      0 ≤ sel ∧ sel < (q.options.length : ℤ))
      (q0 :: t) ((q0 :: t).map (fun q => q.correctAnswer)) := by
    rw [List.forall₂_map_right_iff]
    rw [List.forall₂_same]
    exact hvalid
  obtain ⟨s', hrun, hq, hidx, hua, hsc, hsel⟩ :=
    runSelections_spec ((q0 :: t).map (fun q => q.correctAnswer))
      { questions := q0 :: t, currentQuestionIndex := 0, userAnswers := [],
        score := 0, selectedAnswer := none, domOptionCount := q0.options.length }
      rfl rfl
      (by
        intro q hq0
        simp only [List.getElem?_cons_zero, Option.some.injEq] at hq0
        rw [hq0])
      (by simpa using hforall)
  have hscore : s'.score = (q0 :: t).length := by
    rw [hsc]
    simp only [List.drop_zero]
    rw [countCorrect_all_correct]
    omega
  refine ⟨s', hrun, ?_, hscore, ?_⟩
  · rw [hidx, hq]
    simp
  · rw [hscore, hq]
    exact jsPercentage_self _ (by simp)

/-- C9 witness: a two-question quiz answered correctly throughout. -/
theorem all_correct_gives_full_score_witness :
    ∃ s', runSelections (startQuizSuccess none
        [{ question := "F1", options := ["a", "b"], correctAnswer := 1 },
         { question := "F2", options := ["a", "b", "c"], correctAnswer := 0 }])
        (([{ question := "F1", options := ["a", "b"], correctAnswer := 1 },
           { question := "F2", options := ["a", "b", "c"], correctAnswer := 0 }] :
          List Question).map (fun q => q.correctAnswer)) = (s', none) ∧
      s'.currentQuestionIndex = s'.questions.length ∧
      s'.score = ([{ question := "F1", options := ["a", "b"], correctAnswer := 1 },
         { question := "F2", options := ["a", "b", "c"], correctAnswer := 0 }] :
          List Question).length ∧
      jsPercentage s'.score s'.questions.length = 100 :=
  all_correct_gives_full_score _ (List.cons_ne_nil _ _) (by decide)

/-- C10: submitting while no option is selected changes nothing: score,
answer records, question index and selection are exactly as before the
call. -/
theorem submit_no_selection_frame (s : QuizState) (h : s.selectedAnswer = none) :
    (submitQuizAnswer s).1.score = s.score ∧
    (submitQuizAnswer s).1.userAnswers = s.userAnswers ∧
    (submitQuizAnswer s).1.currentQuestionIndex = s.currentQuestionIndex ∧
    (submitQuizAnswer s).1.selectedAnswer = s.selectedAnswer := by
  rw [submitQuizAnswer, h]
  simp [h]

/-- C10 witness. -/
theorem submit_no_selection_frame_witness :
    (submitQuizAnswer
      { questions := threeQuestions, currentQuestionIndex := 1,
          userAnswers := [some { selected := 0, correct := 0, isCorrect := true }],
          score := 1, selectedAnswer := none, domOptionCount := 2 }).1.score = 1 ∧
    (submitQuizAnswer
      { questions := threeQuestions, currentQuestionIndex := 1,
          userAnswers := [some { selected := 0, correct := 0, isCorrect := true }],
          score := 1, selectedAnswer := none, domOptionCount := 2 }).1.userAnswers
      = [some { selected := 0, correct := 0, isCorrect := true }] ∧
    (submitQuizAnswer
      { questions := threeQuestions, currentQuestionIndex := 1,
          userAnswers := [some { selected := 0, correct := 0, isCorrect := true }],
          score := 1, selectedAnswer := none, domOptionCount := 2 }).1.currentQuestionIndex
      = 1 ∧
    (submitQuizAnswer
      { questions := threeQuestions, currentQuestionIndex := 1,
          userAnswers := [some { selected := 0, correct := 0, isCorrect := true }],
          score := 1, selectedAnswer := none, domOptionCount := 2 }).1.selectedAnswer
      = none :=
  submit_no_selection_frame _ rfl

end AITutor
